import Mathlib

/-!
# Verification of `lineic` — a flexible linear interpolator

Shallow embedding of the library's core (`src/number.rs`, `src/range.rs`,
`src/bucket.rs`, `src/interpolator.rs`).

Modelling conventions:
* Rust `f64` is modelled by `F := Option ℚ`: `some q` is a finite value
  (represented exactly, with no rounding and no overflow to infinity),
  `none` collapses the non-finite values (NaN and the two infinities).
  IEEE comparisons on a non-finite value are false, division by zero is
  non-finite, `f64::min`/`f64::max` ignore a NaN operand.
* Rust `u8` is modelled by `Fin 256`, with the checked arithmetic of the
  `Numeric` impl for unsigned integers.
* Fixed-size arrays `[T; N]` are modelled by functions `Fin N → T`.
* Fallible operations return `Option`; a Rust panic is modelled by `none`.
  There are two panic sources: an out-of-bounds slice index, and the
  `assert!(min <= max)` with which the `std` clamp functions begin — for
  floats that assert fails when a bound is NaN, so `Numeric::clamp` can
  panic and `interpolate` / `reverse_interpolate` propagate that outcome.
-/

/-- Model of Rust `f64` values: `some q` = the finite value `q` (exact),
`none` = non-finite (NaN / ±infinity collapsed). -/
abbrev F : Type := Option ℚ

/-- `f64` addition: any non-finite operand gives a non-finite result. -/
def fadd : F → F → F
  | some x, some y => some (x + y)
  | _, _ => none

/-- `f64` subtraction. -/
def fsub : F → F → F
  | some x, some y => some (x - y)
  | _, _ => none

/-- `f64` multiplication (finite results modelled exactly; `0 * inf = NaN`
and `x * NaN = NaN` are all collapsed into `none`). -/
def fmul : F → F → F
  | some x, some y => some (x * y)
  | _, _ => none

/-- `f64` division: division by zero is non-finite (`0.0/0.0 = NaN`,
`x/0.0 = ±inf`), as is any operation on a non-finite operand. -/
def fdiv : F → F → F
  | some x, some y => if y = 0 then none else some (x / y)
  | _, _ => none

/-- `f64::abs`. -/
def fabs : F → F
  | some x => some |x|
  | none => none

/-- `f64::min`: returns the other operand when one is NaN. -/
def fmin : F → F → F
  | some x, some y => some (min x y)
  | some x, none => some x
  | none, some y => some y
  | none, none => none

/-- `f64::max`: returns the other operand when one is NaN. -/
def fmax : F → F → F
  | some x, some y => some (max x y)
  | some x, none => some x
  | none, some y => some y
  | none, none => none

/-- IEEE `<` through `PartialOrd`: false when an operand is non-finite. -/
def flt : F → F → Bool
  | some x, some y => decide (x < y)
  | _, _ => false

/-- IEEE `<=` through `PartialOrd`: false when an operand is non-finite. -/
def fle : F → F → Bool
  | some x, some y => decide (x ≤ y)
  | _, _ => false

/-- IEEE `==` through `PartialEq`: false when an operand is non-finite
(`NaN != NaN`). -/
def fbeq : F → F → Bool
  | some x, some y => decide (x = y)
  | _, _ => false

/-- The `Numeric` trait of `src/number.rs`, restricted to the members the
interpolation code under verification actually calls. `scale`'s factor is
always an `f64` at every call site, so the factor argument is taken as `F`
directly (`f64::into_f64` is the identity). -/
class Numeric (α : Type) where
  MAX : α
  ZERO : α
  /-- `PartialOrd` `<`. -/
  blt : α → α → Bool
  /-- `PartialOrd` `<=`. -/
  ble : α → α → Bool
  /-- `PartialEq` `==`. -/
  beq : α → α → Bool
  /-- `Numeric::clamp`, which handles `min > max` by swapping before calling
  the `std` clamp; `none` models the `assert!(min <= max)` panic inside the
  `std` clamp (reachable for floats when a bound is NaN). -/
  clamp : α → α → α → Option α
  checked_add : α → α → Option α
  checked_sub : α → α → Option α
  checked_div : α → α → Option α
  from_usize : ℕ → Option α
  into_f64 : α → F
  from_f64 : F → Option α

/-- The trait's provided method `Numeric::abs_diff` (no impl overrides it):
`if self > other { self.checked_sub(other).unwrap_or(ZERO) }
 else { other.checked_sub(self).unwrap_or(ZERO) }`. -/
def Numeric.abs_diff {α : Type} [Numeric α] (self other : α) : α :=
  if Numeric.blt other self then (Numeric.checked_sub self other).getD Numeric.ZERO
  else (Numeric.checked_sub other self).getD Numeric.ZERO

/-- The trait's provided method `Numeric::scale` (no impl overrides it):
`Self::from_f64(self.into_f64() * factor.into_f64())`. -/
def Numeric.scale {α : Type} [Numeric α] (self : α) (factor : F) : Option α :=
  Numeric.from_f64 (fmul (Numeric.into_f64 self) factor)

/-- Model of Rust `u8`. -/
abbrev U8 : Type := Fin 256

/-- `std::cmp::Ord::clamp` for an integer type:
`assert!(min <= max)` — a failed assert is a panic, modelled by `none` —
then `if self < lo { lo } else if self > hi { hi } else { self }`. For a
total order the swap in `Numeric::clamp` always satisfies the assert. -/
def u8OrdClamp (self lo hi : U8) : Option U8 :=
  if lo ≤ hi then some (if self < lo then lo else if hi < self then hi else self)
  else none

/-- `u8`'s `Numeric::from_f64`:
`if value <= u8::MAX as f64 && value >= 0.0 { Some(value as u8) } else { None }`.
`u8::MAX as f64` is exactly 255; the guard is false on a non-finite value;
the cast of an in-range value truncates toward zero. -/
def u8FromF64 : F → Option U8
  | none => none
  | some q =>
    if h : q ≤ 255 ∧ 0 ≤ q then
      some ⟨⌊q⌋₊, by
        have h255 : (⌊q⌋₊ : ℕ) ≤ ⌊(255 : ℚ)⌋₊ := Nat.floor_le_floor h.1
        have : ⌊(255 : ℚ)⌋₊ = 255 := by norm_num
        omega⟩
    else none

/-- The `Numeric` impl for `u8` (from the `auto_impl_u!` macro). -/
instance instNumericU8 : Numeric U8 where
  MAX := 255
  ZERO := 0
  blt a b := decide (a < b)
  ble a b := decide (a ≤ b)
  beq a b := decide (a = b)
  clamp self mn mx := if mn < mx then u8OrdClamp self mn mx else u8OrdClamp self mx mn
  checked_add a b := if h : a.val + b.val ≤ 255 then some ⟨a.val + b.val, by omega⟩ else none
  checked_sub a b := if h : b.val ≤ a.val then some ⟨a.val - b.val, by omega⟩ else none
  checked_div a b :=
    if b.val = 0 then none
    else some ⟨a.val / b.val, lt_of_le_of_lt (Nat.div_le_self a.val b.val) a.isLt⟩
  from_usize n := if h : n ≤ 255 then some ⟨n, by omega⟩ else none
  into_f64 a := some (a.val : ℚ)
  from_f64 := u8FromF64

/-- `std` `f64::clamp`: `assert!(min <= max)` — which fails (a panic,
modelled by `none`) when `lo > hi` or either bound is NaN — then
`if self < lo { lo } else if self > hi { hi } else { self }` (a NaN `self`
passes through). -/
def fStdClamp (self lo hi : F) : Option F :=
  if fle lo hi then some (if flt self lo then lo else if flt hi self then hi else self)
  else none

/-- `f64::MAX` as an exact rational: `(2^1024 - 2^971)`. -/
def f64MAX : ℚ := 2 ^ 1024 - 2 ^ 971

/-- The `Numeric` impl for `f64` (from the `auto_impl_f!` macro): the
checked operations never fail, `from_f64` is `Some(value)`, `from_usize`'s
guard `value <= f64::MAX as usize` is always true. `clamp`'s swap guard
`min < max` is false when a bound is NaN, and the `std` `f64::clamp` then
called with the operands swapped asserts `max <= min`, which is also false
for a NaN bound — so a NaN bound makes `clamp` panic (`none`). -/
instance instNumericF : Numeric F where
  MAX := some f64MAX
  ZERO := some 0
  blt := flt
  ble := fle
  beq := fbeq
  clamp self mn mx := if flt mn mx then fStdClamp self mn mx else fStdClamp self mx mn
  checked_add a b := some (fadd a b)
  checked_sub a b := some (fsub a b)
  checked_div a b := some (fdiv a b)
  from_usize n := some (some (n : ℚ))
  into_f64 a := a
  from_f64 v := some v

/-- Model of Rust `i8` values (the checked operations of the impl keep every
reachable value inside `[-128, 127]`). -/
abbrev I8 : Type := ℤ

/-- Rust's float-to-int `as` cast truncates toward zero (the guard around it
keeps the value in range, so no saturation applies). -/
def ratTruncTowardZero (q : ℚ) : ℤ := if q < 0 then ⌈q⌉ else ⌊q⌋

/-- `i8`'s `Numeric::from_f64` (from the `auto_impl_i!` macro):
`if value <= i8::MAX as f64 && value >= i8::MIN as f64 { Some(value as i8) } else { None }`.
Both bounds are exactly representable in `f64`. -/
def i8FromF64 : F → Option I8
  | none => none
  | some q => if q ≤ 127 ∧ -128 ≤ q then some (ratTruncTowardZero q) else none

/-- Model of Rust `f32` values, like `F`: `some q` finite (represented
exactly), `none` non-finite. -/
structure F32 where
  val : F
deriving DecidableEq

/-- `f32::MAX` as an exact rational: `2^128 - 2^104`. -/
def f32MAX : ℚ := 2 ^ 128 - 2 ^ 104

/-- The `f64`-to-`f32` `as` cast: a non-finite value stays non-finite, a
finite value whose magnitude exceeds `f32::MAX` overflows to ±infinity
(non-finite). The claims about `f32::from_f64` concern only whether it can
return `None` and what happens out of range, so the rounding of in-range
finite values to `f32` precision is modelled as exact, consistently with
the exact-rational model of `f64` itself. -/
def castF64ToF32 : F → F32
  | none => ⟨none⟩
  | some q => if q > f32MAX ∨ q < -f32MAX then ⟨none⟩ else ⟨some q⟩

/-- `f32`'s `Numeric::from_f64` (from the `auto_impl_f!` macro):
`Some(value as f32)` — unconditional. -/
def f32FromF64 (value : F) : Option F32 :=
  some (castF64ToF32 value)

/-- `ReversibleRange<S>` of `src/range.rs` (`end` is a Lean keyword, so the
field is called `endv`). -/
structure ReversibleRange (S : Type) where
  start : S
  endv : S
deriving DecidableEq

/-- `ReversibleRange::contains`:
`(start <= v && v <= end) || (end <= v && v <= start)`. -/
def ReversibleRange.contains {S : Type} [Numeric S] (r : ReversibleRange S) (value : S) : Bool :=
  (Numeric.ble r.start value && Numeric.ble value r.endv) ||
    (Numeric.ble r.endv value && Numeric.ble value r.start)

/-- `ReversibleRange::len`: `start.abs_diff(end)`. -/
def ReversibleRange.len {S : Type} [Numeric S] (r : ReversibleRange S) : S :=
  Numeric.abs_diff r.start r.endv

/-- `ReversibleRange::is_reversed`: `start > end`. -/
def ReversibleRange.is_reversed {S : Type} [Numeric S] (r : ReversibleRange S) : Bool :=
  Numeric.blt r.endv r.start

/-- `InterpolationBucket<N, S, T>` of `src/bucket.rs`. -/
structure InterpolationBucket (N : ℕ) (S T : Type) where
  range : ReversibleRange S
  values_lo : Fin N → T
  values_hi : Fin N → T
deriving DecidableEq

/-- The local `rel_percent` of `InterpolationBucket::interpolate`:
`value = s.clamp(start, end); rel_value = value.abs_diff(start);
rel_percent = rel_value.into_f64() / len.into_f64()`. The outer `none`
propagates a panic of the clamp. -/
def InterpolationBucket.relPercent {N : ℕ} {S T : Type} [Numeric S]
    (b : InterpolationBucket N S T) (s : S) : Option F :=
  (Numeric.clamp s b.range.start b.range.endv).map fun value =>
    fdiv (Numeric.into_f64 (Numeric.abs_diff value b.range.start))
      (Numeric.into_f64 b.range.len)

/-- The local `adj` of `InterpolationBucket::interpolate` for component `i`,
given the loop-invariant `rel_percent`:
`lo[i].abs_diff(hi[i]).scale(rel_percent).unwrap_or(T::MAX)`. -/
def InterpolationBucket.adj {N : ℕ} {S T : Type} [Numeric S] [Numeric T]
    (b : InterpolationBucket N S T) (rel : F) (i : Fin N) : T :=
  (Numeric.scale (Numeric.abs_diff (b.values_lo i) (b.values_hi i)) rel).getD
    Numeric.MAX

/-- `InterpolationBucket::interpolate`: clamp the query (`none` propagates
the clamp's panic), then per component,
`if lo[i] > hi[i] { lo[i].checked_sub(adj).unwrap_or(T::ZERO) }
 else { lo[i].checked_add(adj).unwrap_or(T::MAX) }`. -/
def InterpolationBucket.interpolate {N : ℕ} {S T : Type} [Numeric S] [Numeric T]
    (b : InterpolationBucket N S T) (s : S) : Option (Fin N → T) :=
  (b.relPercent s).map fun rel => fun i =>
    if Numeric.blt (b.values_hi i) (b.values_lo i) then
      (Numeric.checked_sub (b.values_lo i) (b.adj rel i)).getD Numeric.ZERO
    else
      (Numeric.checked_add (b.values_lo i) (b.adj rel i)).getD Numeric.MAX

/-- `DIFF_FLOOR` of `InterpolationBucket::reverse_interpolate`: `1e-6`
(taken as the exact rational, consistently with the exact model of `f64`). -/
def DIFF_FLOOR : ℚ := 1 / 1000000

/-- The component loop of `InterpolationBucket::reverse_interpolate`, run
over the remaining component indices with the accumulator `rel_percent :
Option<f64>`. The outermost `none` models a panic of the per-component
clamp (its `assert!(min <= max)` fails — possible for float components
with a NaN endpoint, never for integers); `some none` models the early
`return None`; `some (some acc)` is the accumulator when the loop
finishes. Per index:
```
if *input != input.clamp(lo[i], hi[i]) { return None; }
let diff  = lo[i].abs_diff(hi[i]).into_f64();
let diff2 = lo[i].abs_diff(*input).into_f64();
let percent = diff.min(diff2) / diff.max(diff2);
if diff == 0.0 && diff2 == 0.0 { continue; }
if let Some(p) = rel_percent {
  if f64::abs(p - percent) > DIFF_FLOOR { return None; }
} else { rel_percent = Some(percent); }
```
-/
def revLoop {N : ℕ} {T : Type} [Numeric T] (lo hi input : Fin N → T) :
    List (Fin N) → Option F → Option (Option (Option F))
  | [], acc => some (some acc)
  | i :: rest, acc =>
    match Numeric.clamp (input i) (lo i) (hi i) with
    | none => none
    | some clamped =>
      if !(Numeric.beq (input i) clamped) then some none
      else
        let diff := Numeric.into_f64 (Numeric.abs_diff (lo i) (hi i))
        let diff2 := Numeric.into_f64 (Numeric.abs_diff (lo i) (input i))
        let percent := fdiv (fmin diff diff2) (fmax diff diff2)
        if fbeq diff (some 0) && fbeq diff2 (some 0) then revLoop lo hi input rest acc
        else
          match acc with
          | some p =>
            if flt (some DIFF_FLOOR) (fabs (fsub p percent)) then some none
            else revLoop lo hi input rest (some p)
          | none => revLoop lo hi input rest (some percent)

/-- `InterpolationBucket::reverse_interpolate`: run the component loop
(the outer `none` propagates its panic; a normal return `r : Option<S>` is
`some r`), fail if it returned early or never saw an informative
component, mirror the relative position when the range is descending, and
project back:
```
let len = self.end().abs_diff(start);
... loop ...
let mut rel_percent = rel_percent?;
if self.start() > self.end() { rel_percent = 1.0 - rel_percent; }
if start < end { start.checked_add(len.scale(rel_percent)?) }
else { end.checked_add(len.scale(rel_percent)?) }
```
-/
def InterpolationBucket.reverse_interpolate {N : ℕ} {S T : Type} [Numeric S] [Numeric T]
    (b : InterpolationBucket N S T) (input : Fin N → T) : Option (Option S) :=
  let start := b.range.start
  let endv := b.range.endv
  let len := Numeric.abs_diff endv start
  match revLoop b.values_lo b.values_hi input (List.finRange N) none with
  | none => none
  | some none => some none
  | some (some acc) =>
    match acc with
    | none => some none
    | some rel =>
      let rel := if Numeric.blt endv start then fsub (some 1) rel else rel
      if Numeric.blt start endv then
        some ((Numeric.scale len rel).bind (Numeric.checked_add start))
      else some ((Numeric.scale len rel).bind (Numeric.checked_add endv))

/-- `LinearInterpolator<N, S, T>` of `src/interpolator.rs` (the `Cow`
borrowed/owned distinction does not affect behaviour and is dropped). -/
structure LinearInterpolator (N : ℕ) (S T : Type) where
  buckets : List (InterpolationBucket N S T)
deriving DecidableEq

/-- The bucket-building loop of `LinearInterpolator::try_new`, as a
recursion over the adjacent pairs of value sets (`is_last` holds exactly
when the pair is the final one):
```
let end = if is_last { range.end }
          else if range.is_reversed() { start.checked_sub(step_by).unwrap_or(S::ZERO) }
          else { start.checked_add(step_by).unwrap_or(S::MAX) };
buckets.push(InterpolationBucket::new(start..=end, value_sets[i], value_sets[i+1]));
start = end;
```
-/
def buildBuckets {N : ℕ} {S T : Type} [Numeric S] (rangeEnd step : S) (rev : Bool) :
    S → List (Fin N → T) → List (InterpolationBucket N S T)
  | start, v0 :: v1 :: rest =>
    let endv :=
      if rest.isEmpty then rangeEnd
      else if rev then (Numeric.checked_sub start step).getD Numeric.ZERO
      else (Numeric.checked_add start step).getD Numeric.MAX
    ⟨⟨start, endv⟩, v0, v1⟩ :: buildBuckets rangeEnd step rev endv (v1 :: rest)
  | _, _ => []

/-- `LinearInterpolator::try_new`: zero value sets give one all-`ZERO`
bucket, one value set gives one constant bucket, `k ≥ 2` value sets divide
the range into `k - 1` buckets with step `len.checked_div(S::from_usize(k - 1)?)?`. -/
def LinearInterpolator.try_new {N : ℕ} {S T : Type} [Numeric S] [Numeric T]
    (range : ReversibleRange S) (value_sets : List (Fin N → T)) :
    Option (LinearInterpolator N S T) :=
  match value_sets with
  | [] => some ⟨[⟨range, fun _ => Numeric.ZERO, fun _ => Numeric.ZERO⟩]⟩
  | [v] => some ⟨[⟨range, v, v⟩]⟩
  | v0 :: v1 :: rest =>
    let capacity := (v0 :: v1 :: rest).length - 1
    let len := Numeric.abs_diff range.start range.endv
    match Numeric.from_usize (α := S) capacity with
    | none => none
    | some c =>
      match Numeric.checked_div len c with
      | none => none
      | some step_by =>
        some ⟨buildBuckets range.endv step_by range.is_reversed range.start (v0 :: v1 :: rest)⟩

/-- `LinearInterpolator::is_reversed`:
`self.buckets().first().is_some_and(|b| b.range().is_reversed())`. -/
def LinearInterpolator.is_reversed {N : ℕ} {S T : Type} [Numeric S]
    (it : LinearInterpolator N S T) : Bool :=
  match it.buckets with
  | [] => false
  | b :: _ => b.range.is_reversed

/-- The binary-search loop of `LinearInterpolator::get_bucket`. The final
`&slice[0]` is `slice.head?`: `none` models the panic on an empty slice.
```
while slice.len() > 1 {
  let mid = slice.len() / 2;
  let mid_bucket = &slice[mid];
  if mid_bucket.range().contains(s) { return mid_bucket; }
  if (!rev && s >= mid_bucket.start()) || (rev && s <= mid_bucket.start()) {
    slice = &slice[mid..];
  } else { slice = &slice[..mid]; }
}
&slice[0]
```
-/
def getBucketLoop {N : ℕ} {S T : Type} [Numeric S] (rev : Bool) (s : S)
    (slice : List (InterpolationBucket N S T)) : Option (InterpolationBucket N S T) :=
  if h : 1 < slice.length then
    let mid := slice.length / 2
    let mid_bucket := slice.get ⟨mid, by omega⟩
    if mid_bucket.range.contains s then some mid_bucket
    else if (!rev && Numeric.ble mid_bucket.range.start s) ||
        (rev && Numeric.ble s mid_bucket.range.start) then
      getBucketLoop rev s (slice.drop mid)
    else
      getBucketLoop rev s (slice.take mid)
  else slice.head?
termination_by slice.length
decreasing_by
  · simp only [List.length_drop]; omega
  · simp only [List.length_take]; omega

/-- `LinearInterpolator::get_bucket`. -/
def LinearInterpolator.get_bucket {N : ℕ} {S T : Type} [Numeric S]
    (it : LinearInterpolator N S T) (s : S) : Option (InterpolationBucket N S T) :=
  getBucketLoop it.is_reversed s it.buckets

/-- `LinearInterpolator::interpolate`: `self.get_bucket(s).interpolate(s)`
(`none` models a panic: `get_bucket`'s indexing on an interpolator with no
buckets — which `new`/`try_new` never produce — or the clamp's failed
assert inside the bucket's `interpolate`). -/
def LinearInterpolator.interpolate {N : ℕ} {S T : Type} [Numeric S] [Numeric T]
    (it : LinearInterpolator N S T) (s : S) : Option (Fin N → T) :=
  (it.get_bucket s).bind (fun b => b.interpolate s)

/-- The bucket scan of `LinearInterpolator::reverse_interpolate`: return the
first bucket's successful reverse interpolation; a panic (`none`) in a
visited bucket propagates. -/
def revScan {N : ℕ} {S T : Type} [Numeric S] [Numeric T] (values : Fin N → T) :
    List (InterpolationBucket N S T) → Option (Option S)
  | [] => some none
  | b :: rest =>
    match b.reverse_interpolate values with
    | none => none
    | some (some s) => some (some s)
    | some none => revScan values rest

/-- `LinearInterpolator::reverse_interpolate`: linear scan, first success. -/
def LinearInterpolator.reverse_interpolate {N : ℕ} {S T : Type} [Numeric S] [Numeric T]
    (it : LinearInterpolator N S T) (values : Fin N → T) : Option (Option S) :=
  revScan values it.buckets

/-! ## Concrete data used by the claims -/

/-- The `RED` value set of the repository's bucket test. -/
def RED : Fin 3 → U8 := ![255, 50, 50]

/-- The `GRN` value set of the repository's bucket test. -/
def GRN : Fin 3 → U8 := ![50, 255, 50]

/-- The bucket `InterpolationBucket::new((0.0, 1.0), RED, GRN)` of the test. -/
def fwdBucket : InterpolationBucket 3 F U8 := ⟨⟨some 0, some 1⟩, RED, GRN⟩

/-- The mirrored bucket `InterpolationBucket::new((1.0, 0.0), GRN, RED)`. -/
def bwdBucket : InterpolationBucket 3 F U8 := ⟨⟨some 1, some 0⟩, GRN, RED⟩

/-- A bucket with a zero-length range (`start == end == 0.0`) and distinct
endpoint values. -/
def zeroLenBucket : InterpolationBucket 1 F U8 := ⟨⟨some 0, some 0⟩, ![10], ![20]⟩

/-- A one-component bucket over `[0.0, 1.0]` from `0` to `255`. -/
def byteRampBucket : InterpolationBucket 1 F U8 := ⟨⟨some 0, some 1⟩, ![0], ![255]⟩

/-- The range `0.0..=100.0` of the interpolator tests. -/
def range3 : ReversibleRange F := ⟨some 0, some 100⟩

/-- Three one-component value sets. -/
def vs3 : List (Fin 1 → U8) := [![0], ![1], ![2]]

/-- The first bucket `try_new(0.0..=100.0, vs3)` produces. -/
def bucket30 : InterpolationBucket 1 F U8 := ⟨⟨some 0, some 50⟩, ![0], ![1]⟩

/-- The second bucket `try_new(0.0..=100.0, vs3)` produces. -/
def bucket31 : InterpolationBucket 1 F U8 := ⟨⟨some 50, some 100⟩, ![1], ![2]⟩

/-- The interpolator `try_new(0.0..=100.0, vs3)` produces. -/
def it3 : LinearInterpolator 1 F U8 := ⟨[bucket30, bucket31]⟩

/-- A bucket over `f64` range and `f64` components with finite endpoints
and finite component values, given by their exact rationals. -/
def finBucket {N : ℕ} (a c : ℚ) (L H : Fin N → ℚ) : InterpolationBucket N F F :=
  ⟨⟨some a, some c⟩, fun i => some (L i), fun i => some (H i)⟩

/-- Claim-side predicate (C4): component `i` of the target vector lies
outside the closed interval `[min(lo[i], hi[i]), max(lo[i], hi[i])]`. -/
def oobAt {N : ℕ} (L H X : Fin N → ℚ) (i : Fin N) : Prop :=
  X i < min (L i) (H i) ∨ max (L i) (H i) < X i

/-- Claim-side function (C4): component `i`'s relative position
`min(d1, d2) / max(d1, d2)` with `d1 = |lo[i] - hi[i]|`, `d2 = |lo[i] - value[i]|`. -/
def posAt {N : ℕ} (L H X : Fin N → ℚ) (i : Fin N) : ℚ :=
  min |L i - H i| |L i - X i| / max |L i - H i| |L i - X i|

/-- The first informative (non-flat) component, in index order — the
component whose relative position the loop of `reverse_interpolate`
compares all later informative components against. -/
def firstInformative {N : ℕ} (L H : Fin N → ℚ) : Option (Fin N) :=
  (List.finRange N).find? (fun i => !decide (L i = H i))

/-- Counterexample data for C4: three components, each from `0.0` to `1.0`. -/
def revL : Fin 3 → ℚ := fun _ => 0

/-- Counterexample data for C4: the high endpoints. -/
def revH : Fin 3 → ℚ := fun _ => 1

/-- Counterexample input for C4 (as rationals): the first component sits at
relative position `1/2`, the two others at `1/2 ± 9e-7` — each within
`1e-6` of the first, but `1.8e-6` apart from each other. -/
def revXQ : Fin 3 → ℚ := ![1/2, 1/2 + 9/10000000, 1/2 - 9/10000000]

/-- Counterexample bucket for C4. -/
def revB : InterpolationBucket 3 F F := finBucket 0 1 revL revH

/-- Counterexample input for C4, as `f64` component values. -/
def revInput : Fin 3 → F := fun i => some (revXQ i)

/-- The range `f64::NAN..=1.0`: a NaN start endpoint. `try_new` accepts it
because none of the float checked operations can fail. -/
def nanRange : ReversibleRange F := ⟨none, some 1⟩

/-- Two one-component `u8` value sets. -/
def vs2 : List (Fin 1 → U8) := [![0], ![255]]

/-- The single bucket `try_new(f64::NAN..=1.0, vs2)` produces: its range
start is NaN. -/
def nanBucket : InterpolationBucket 1 F U8 := ⟨⟨none, some 1⟩, ![0], ![255]⟩

/-- The interpolator `try_new(f64::NAN..=1.0, vs2)` produces. -/
def itNaN : LinearInterpolator 1 F U8 := ⟨[nanBucket]⟩

/-! ## Evaluation interface: the instance operations as rewrite rules -/

@[simp] theorem fadd_some_some (x y : ℚ) : fadd (some x) (some y) = some (x + y) := rfl
@[simp] theorem fsub_some_some (x y : ℚ) : fsub (some x) (some y) = some (x - y) := rfl
@[simp] theorem fsub_none_right (x : F) : fsub x none = none := by cases x <;> rfl
@[simp] theorem fsub_none_left (y : F) : fsub none y = none := by cases y <;> rfl
@[simp] theorem fdiv_none_left (y : F) : fdiv none y = none := by cases y <;> rfl
@[simp] theorem fmul_some_some (x y : ℚ) : fmul (some x) (some y) = some (x * y) := rfl
@[simp] theorem fmul_none_right (x : F) : fmul x none = none := by cases x <;> rfl
@[simp] theorem fdiv_some_some (x y : ℚ) :
    fdiv (some x) (some y) = if y = 0 then none else some (x / y) := rfl
@[simp] theorem fabs_some (x : ℚ) : fabs (some x) = some |x| := rfl
@[simp] theorem fmin_some_some (x y : ℚ) : fmin (some x) (some y) = some (min x y) := rfl
@[simp] theorem fmax_some_some (x y : ℚ) : fmax (some x) (some y) = some (max x y) := rfl
@[simp] theorem flt_some_some (x y : ℚ) : flt (some x) (some y) = decide (x < y) := rfl
@[simp] theorem flt_none_left (y : F) : flt none y = false := by cases y <;> rfl
@[simp] theorem flt_none_right (x : F) : flt x none = false := by cases x <;> rfl
@[simp] theorem fle_some_some (x y : ℚ) : fle (some x) (some y) = decide (x ≤ y) := rfl
@[simp] theorem fle_none_left (y : F) : fle none y = false := by cases y <;> rfl
@[simp] theorem fle_none_right (x : F) : fle x none = false := by cases x <;> rfl
@[simp] theorem fbeq_some_some (x y : ℚ) : fbeq (some x) (some y) = decide (x = y) := rfl

@[simp] theorem U8_blt (a b : U8) : Numeric.blt a b = decide (a < b) := rfl
@[simp] theorem U8_ble (a b : U8) : Numeric.ble a b = decide (a ≤ b) := rfl
@[simp] theorem U8_beq (a b : U8) : Numeric.beq a b = decide (a = b) := rfl
@[simp] theorem U8_MAX : (Numeric.MAX : U8) = 255 := rfl
@[simp] theorem U8_ZERO : (Numeric.ZERO : U8) = 0 := rfl
@[simp] theorem U8_clamp (s mn mx : U8) :
    Numeric.clamp s mn mx = if mn < mx then u8OrdClamp s mn mx else u8OrdClamp s mx mn := rfl
@[simp] theorem U8_checked_add (a b : U8) :
    Numeric.checked_add a b =
      if h : a.val + b.val ≤ 255 then some ⟨a.val + b.val, by omega⟩ else none := rfl
@[simp] theorem U8_checked_sub (a b : U8) :
    Numeric.checked_sub a b =
      if h : b.val ≤ a.val then some ⟨a.val - b.val, by omega⟩ else none := rfl
@[simp] theorem U8_into_f64 (a : U8) : Numeric.into_f64 a = some (a.val : ℚ) := rfl
@[simp] theorem U8_from_f64 (v : F) : Numeric.from_f64 v = u8FromF64 v := rfl

@[simp] theorem F_blt (a b : F) : Numeric.blt a b = flt a b := rfl
@[simp] theorem F_ble (a b : F) : Numeric.ble a b = fle a b := rfl
@[simp] theorem F_beq (a b : F) : Numeric.beq a b = fbeq a b := rfl
@[simp] theorem F_clamp (s mn mx : F) :
    Numeric.clamp s mn mx = if flt mn mx then fStdClamp s mn mx else fStdClamp s mx mn := rfl
@[simp] theorem F_checked_add (a b : F) : Numeric.checked_add a b = some (fadd a b) := rfl
@[simp] theorem F_checked_sub (a b : F) : Numeric.checked_sub a b = some (fsub a b) := rfl
@[simp] theorem F_checked_div (a b : F) : Numeric.checked_div a b = some (fdiv a b) := rfl
@[simp] theorem F_into_f64 (a : F) : Numeric.into_f64 a = a := rfl
@[simp] theorem F_from_f64 (v : F) : Numeric.from_f64 (α := F) v = some v := rfl
@[simp] theorem F_from_usize (n : ℕ) : Numeric.from_usize (α := F) n = some (some (n : ℚ)) := rfl
@[simp] theorem F_ZERO : (Numeric.ZERO : F) = some 0 := rfl

@[simp] theorem U8v0 : ((0 : U8)).val = 0 := rfl
@[simp] theorem U8v1 : ((1 : U8)).val = 1 := rfl
@[simp] theorem U8v2 : ((2 : U8)).val = 2 := rfl
@[simp] theorem U8v10 : ((10 : U8)).val = 10 := rfl
@[simp] theorem U8v20 : ((20 : U8)).val = 20 := rfl
@[simp] theorem U8v50 : ((50 : U8)).val = 50 := rfl
@[simp] theorem U8v127 : ((127 : U8)).val = 127 := rfl
@[simp] theorem U8v132 : ((132 : U8)).val = 132 := rfl
@[simp] theorem U8v173 : ((173 : U8)).val = 173 := rfl
@[simp] theorem U8v255 : ((255 : U8)).val = 255 := rfl

/-! ## Evaluation helpers for the concrete buckets -/

theorem fwd_rel : fwdBucket.relPercent (some (3/5)) = some (some (3/5)) := by
  norm_num [fwdBucket, InterpolationBucket.relPercent, ReversibleRange.len, Numeric.abs_diff,
    fStdClamp]

theorem bwd_rel06 : bwdBucket.relPercent (some (3/5)) = some (some (2/5)) := by
  norm_num [bwdBucket, InterpolationBucket.relPercent, ReversibleRange.len, Numeric.abs_diff,
    fStdClamp]

theorem bwd_rel04 : bwdBucket.relPercent (some (2/5)) = some (some (3/5)) := by
  norm_num [bwdBucket, InterpolationBucket.relPercent, ReversibleRange.len, Numeric.abs_diff,
    fStdClamp]

theorem fwd_at06 : fwdBucket.interpolate (some (3/5)) = some ![132, 173, 50] := by
  rw [InterpolationBucket.interpolate, fwd_rel, Option.map_some']
  refine congrArg some (funext fun i => ?_)
  fin_cases i <;>
  · simp only [InterpolationBucket.adj]
    norm_num [fwdBucket, RED, GRN, Numeric.abs_diff, Numeric.scale, u8FromF64,
      Fin.lt_def, Fin.le_def, Fin.ext_iff]

theorem bwd_at06 : bwdBucket.interpolate (some (3/5)) = some ![132, 173, 50] := by
  rw [InterpolationBucket.interpolate, bwd_rel06, Option.map_some']
  refine congrArg some (funext fun i => ?_)
  fin_cases i <;>
  · simp only [InterpolationBucket.adj]
    norm_num [bwdBucket, RED, GRN, Numeric.abs_diff, Numeric.scale, u8FromF64,
      Fin.lt_def, Fin.le_def, Fin.ext_iff]

theorem bwd_at04 : bwdBucket.interpolate (some (2/5)) = some ![173, 132, 50] := by
  rw [InterpolationBucket.interpolate, bwd_rel04, Option.map_some']
  refine congrArg some (funext fun i => ?_)
  fin_cases i <;>
  · simp only [InterpolationBucket.adj]
    norm_num [bwdBucket, RED, GRN, Numeric.abs_diff, Numeric.scale, u8FromF64,
      Fin.lt_def, Fin.le_def, Fin.ext_iff]

/-! ## The claims -/

/-- Claim C2: for the bucket with range `[0.0, 1.0]`, `values_lo = [255, 50, 50]`,
`values_hi = [50, 255, 50]` over `u8` components, `interpolate(0.6)` equals
`[132, 173, 50]`; and the mirrored bucket with range `[1.0, 0.0]` and the
value sets swapped also returns `[132, 173, 50]` at query `0.6`. -/
theorem interpolate_concrete_red_green :
    fwdBucket.interpolate (some (3/5)) = some ![132, 173, 50] ∧
    bwdBucket.interpolate (some (3/5)) = some ![132, 173, 50] :=
  ⟨fwd_at06, bwd_at06⟩

/-- Claim C8 counterexample: the bucket `(start=0, end=1, lo=RED, hi=GREEN)`
queried at `0.6` and its mirror `(start=1, end=0, lo=GREEN, hi=RED)` queried
at `0.4` do NOT produce identical vectors: the first gives `[132, 173, 50]`,
the second `[173, 132, 50]`. (The two reversals cancel, so the mirror equals
the original at the SAME query — which is what the repository's own test
checks, using `0.6` for both.) -/
theorem mirror_query_counterexample :
    fwdBucket.interpolate (some (3/5)) = some ![132, 173, 50] ∧
    bwdBucket.interpolate (some (2/5)) = some ![173, 132, 50] ∧
    fwdBucket.interpolate (some (3/5)) ≠ bwdBucket.interpolate (some (2/5)) := by
  refine ⟨fwd_at06, bwd_at04, ?_⟩
  rw [fwd_at06, bwd_at04]
  intro h
  have h0 := congrFun (Option.some_inj.mp h) 0
  simp only [Matrix.cons_val_zero] at h0
  exact absurd (congrArg Fin.val h0) (by norm_num)

/-- Claim C8 as amended: the mirror bucket produces the identical
interpolated vector at the same query — `0.6` against `0.6` (and likewise
`0.4` against `0.4`), matching the repository's test. -/
theorem mirror_same_query :
    fwdBucket.interpolate (some (3/5)) = bwdBucket.interpolate (some (3/5)) := by
  rw [fwd_at06, bwd_at06]

/-! ## get_bucket: evaluation lemmas and the concrete claim -/

theorem try_new_it3 : LinearInterpolator.try_new range3 vs3 = some it3 := by
  norm_num [LinearInterpolator.try_new, buildBuckets, vs3, range3, it3, bucket30, bucket31,
    ReversibleRange.is_reversed, Numeric.abs_diff]

theorem get_pair_one {A : Type} (a b : A) (h : 1 < [a,b].length) : [a, b].get ⟨1, h⟩ = b := rfl

theorem getBucketLoop_single {N : ℕ} {S T : Type} [Numeric S] (rev : Bool) (s : S)
    (b : InterpolationBucket N S T) : getBucketLoop rev s [b] = some b := by
  rw [getBucketLoop.eq_def]
  simp

theorem getBucketLoop_pair {N : ℕ} {S T : Type} [Numeric S] (rev : Bool) (s : S)
    (b0 b1 : InterpolationBucket N S T) :
    getBucketLoop rev s [b0, b1] =
      if b1.range.contains s then some b1
      else if (!rev && Numeric.ble b1.range.start s) || (rev && Numeric.ble s b1.range.start)
      then some b1 else some b0 := by
  rw [getBucketLoop.eq_def]
  simp [get_pair_one, getBucketLoop_single]

theorem gb0 : it3.get_bucket (some 0) = some bucket30 := by
  rw [LinearInterpolator.get_bucket]
  norm_num [LinearInterpolator.is_reversed, it3, getBucketLoop_pair,
    ReversibleRange.is_reversed, ReversibleRange.contains, bucket30, bucket31]

theorem gb50 : it3.get_bucket (some 50) = some bucket31 := by
  rw [LinearInterpolator.get_bucket]
  norm_num [LinearInterpolator.is_reversed, it3, getBucketLoop_pair,
    ReversibleRange.is_reversed, ReversibleRange.contains, bucket30, bucket31]

theorem gb100 : it3.get_bucket (some 100) = some bucket31 := by
  rw [LinearInterpolator.get_bucket]
  norm_num [LinearInterpolator.is_reversed, it3, getBucketLoop_pair,
    ReversibleRange.is_reversed, ReversibleRange.contains, bucket30, bucket31]

/-- Claim C7: for the ascending interpolator built by `try_new` over the
range `0.0..=100.0` from 3 value-sets (two buckets, `[0,50]` and `[50,100]`),
`get_bucket(0)` returns bucket 0, `get_bucket(50)` returns bucket 1 (the
shared boundary belongs to the upper bucket), and `get_bucket(100)` returns
bucket 1. -/
theorem get_bucket_concrete :
    LinearInterpolator.try_new range3 vs3 = some it3 ∧
    it3.get_bucket (some 0) = some bucket30 ∧
    it3.get_bucket (some 50) = some bucket31 ∧
    it3.get_bucket (some 100) = some bucket31 :=
  ⟨try_new_it3, gb0, gb50, gb100⟩

theorem u8FromF64_none : u8FromF64 none = none := rfl

theorem zeroLen_rel : zeroLenBucket.relPercent (some 0) = some none := by
  norm_num [zeroLenBucket, InterpolationBucket.relPercent, ReversibleRange.len,
    Numeric.abs_diff, fStdClamp]

theorem zeroLen_adj : zeroLenBucket.adj none 0 = 255 := by
  simp only [InterpolationBucket.adj]
  norm_num [zeroLenBucket, Numeric.abs_diff, Numeric.scale, u8FromF64_none]

/-- Claim C1, evaluated at the failing input: the bucket with range
`[0.0, 0.0]`, `values_lo = [10]`, `values_hi = [20]` (u8 components) has a
zero-length range, but `interpolate(0.0)` returns `[255]`, not `values_lo`:
there is no zero-length special case in the code — `rel_percent` is
`0.0/0.0 = NaN`, `scale` then fails and `unwrap_or(T::MAX)` makes the
magnitude 255, whose saturating addition to 10 gives `u8::MAX`. This
contradicts the bucket's own documentation ("values < range min will be
clamped to lo"). -/
theorem interpolate_zero_length_bug :
    zeroLenBucket.range.start = zeroLenBucket.range.endv ∧
    zeroLenBucket.interpolate (some 0) = some ![255] ∧
    zeroLenBucket.values_lo = ![10] ∧
    zeroLenBucket.interpolate (some 0) ≠ some zeroLenBucket.values_lo := by
  have hv : zeroLenBucket.interpolate (some 0) = some ![255] := by
    rw [InterpolationBucket.interpolate, zeroLen_rel, Option.map_some']
    refine congrArg some (funext fun i => ?_)
    fin_cases i
    simp only [InterpolationBucket.adj]
    norm_num [zeroLenBucket, Numeric.abs_diff, Numeric.scale, u8FromF64_none,
      Fin.lt_def, Fin.ext_iff]
  refine ⟨rfl, hv, rfl, ?_⟩
  rw [hv]
  intro h
  have h0 := congrFun (Option.some_inj.mp h) 0
  exact absurd (congrArg Fin.val h0) (by decide)

/-- Claim C5: whenever the clamp at the top of `interpolate` does not
panic (its result is the loop-invariant `rel_percent`), the per-component
arithmetic never fails the interpolation: when the checked addition
(`lo[i] <= hi[i]` case) fails the component saturates to `T::MAX`, and
when the checked subtraction (`lo[i] > hi[i]` case) fails it saturates to
`T::ZERO`. -/
theorem interpolate_saturates {N : ℕ} {S T : Type} [Numeric S] [Numeric T]
    (b : InterpolationBucket N S T) (s : S) (rel : F) (i : Fin N)
    (hrel : b.relPercent s = some rel) :
    (Numeric.blt (b.values_hi i) (b.values_lo i) = false →
      Numeric.checked_add (b.values_lo i) (b.adj rel i) = none →
      ∃ v, b.interpolate s = some v ∧ v i = Numeric.MAX) ∧
    (Numeric.blt (b.values_hi i) (b.values_lo i) = true →
      Numeric.checked_sub (b.values_lo i) (b.adj rel i) = none →
      ∃ v, b.interpolate s = some v ∧ v i = Numeric.ZERO) := by
  constructor <;> intro h1 h2 <;>
    exact ⟨_, by rw [InterpolationBucket.interpolate, hrel, Option.map_some'],
      by simp [h1, h2]⟩

/-- Claim C5, exercised at a concrete input where the checked addition
really overflows (the zero-length bucket: `10 + 255` overflows `u8`) —
the component saturates to `u8::MAX`. -/
theorem interpolate_saturates_witness :
    ∃ v, zeroLenBucket.interpolate (some 0) = some v ∧ v 0 = Numeric.MAX :=
  (interpolate_saturates zeroLenBucket (some 0) none 0 zeroLen_rel).1 (by decide)
    (by rw [zeroLen_adj]; decide)

/-- Claim C9 counterexample: `10^300` lies far outside `f32`'s representable
range, yet `f32`'s `from_f64` does not return `None`: it returns
`Some(+infinity)` (the unconditional `Some(value as f32)` saturates the
overflow to infinity instead of rejecting it). -/
theorem from_f64_float_counterexample :
    f32MAX < 10 ^ 300 ∧
    f32FromF64 (some (10 ^ 300)) = some ⟨none⟩ ∧
    f32FromF64 (some (10 ^ 300)) ≠ none := by
  have h : f32MAX < 10 ^ 300 := by norm_num [f32MAX]
  refine ⟨h, ?_, ?_⟩
  · simp [f32FromF64, castF64ToF32]
    intro h2
    linarith
  · simp [f32FromF64]

/-- Claim C9 as amended: the integer impls whose `MAX` is exactly
representable in `f64` do reject every out-of-range value (shown for `u8`
and `i8`, finite and non-finite inputs alike); the floating-point impls
never reject anything: `f64`'s `from_f64` is the identity wrapped in `Some`
(accepting even NaN), and `f32`'s never returns `None` — out-of-range
values saturate to infinity. -/
theorem from_f64_range_behavior :
    (∀ q : ℚ, 255 < q ∨ q < 0 → u8FromF64 (some q) = none) ∧
    u8FromF64 none = none ∧
    (∀ q : ℚ, 127 < q ∨ q < -128 → i8FromF64 (some q) = none) ∧
    i8FromF64 none = none ∧
    (∀ v : F, Numeric.from_f64 (α := F) v = some v) ∧
    (∀ v : F, f32FromF64 v ≠ none) := by
  refine ⟨?_, rfl, ?_, rfl, fun v => rfl, fun v => by simp [f32FromF64]⟩
  · intro q hq
    rcases hq with h | h <;> simp [u8FromF64] <;> intro h1 <;> linarith
  · intro q hq
    rcases hq with h | h <;> simp [i8FromF64] <;> intro h1 <;> linarith

/-- Claim C9 amended, exercised at concrete inputs: `u8` rejects `300.0`
and `-1.0`, `i8` rejects `200.0`, `f64` accepts `NaN`, `f32` accepts
`1e10` (a value outside no range). -/
theorem from_f64_range_witness :
    u8FromF64 (some 300) = none ∧ u8FromF64 (some (-1)) = none ∧
    i8FromF64 (some 200) = none ∧ f32FromF64 (some 10000000000) ≠ none :=
  ⟨from_f64_range_behavior.1 300 (by norm_num),
   from_f64_range_behavior.1 (-1) (by norm_num),
   from_f64_range_behavior.2.2.1 200 (by norm_num),
   from_f64_range_behavior.2.2.2.2.2 (some 10000000000)⟩

theorem bb_length {N : ℕ} {S T : Type} [Numeric S] (rE step : S) (rev : Bool) :
    ∀ (rest : List (Fin N → T)) (v0 v1 : Fin N → T) (st : S),
      (buildBuckets rE step rev st (v0 :: v1 :: rest)).length = rest.length + 1
  | [], v0, v1, st => by simp [buildBuckets]
  | v2 :: rest', v0, v1, st => by
    rw [buildBuckets]
    simpa using bb_length rE step rev rest' v1 v2 _

theorem bb_head_start {N : ℕ} {S T : Type} [Numeric S] (rE step : S) (rev : Bool)
    (rest : List (Fin N → T)) (v0 v1 : Fin N → T) (st : S) :
    (buildBuckets rE step rev st (v0 :: v1 :: rest)).head?.map
      (fun b => b.range.start) = some st := by
  rw [buildBuckets]
  simp

theorem bb_last_end {N : ℕ} {S T : Type} [Numeric S] (rE step : S) (rev : Bool) :
    ∀ (rest : List (Fin N → T)) (v0 v1 : Fin N → T) (st : S),
      (buildBuckets rE step rev st (v0 :: v1 :: rest)).getLast?.map
        (fun b => b.range.endv) = some rE
  | [], v0, v1, st => by simp [buildBuckets]
  | v2 :: rest', v0, v1, st => by
    have h := bb_last_end rE step rev rest' v1 v2
      (if (v2 :: rest').isEmpty then rE
       else if rev then (Numeric.checked_sub st step).getD Numeric.ZERO
       else (Numeric.checked_add st step).getD Numeric.MAX)
    obtain ⟨lb, hlb, hfb⟩ := Option.map_eq_some'.mp h
    rw [buildBuckets, List.getLast?_cons, hlb]
    simpa using hfb

theorem bb_chain {N : ℕ} {S T : Type} [Numeric S] (rE step : S) (rev : Bool) :
    ∀ (rest : List (Fin N → T)) (v0 v1 : Fin N → T) (st : S),
      List.Chain' (fun a b => a.range.endv = b.range.start)
        (buildBuckets rE step rev st (v0 :: v1 :: rest))
  | [], v0, v1, st => by
    rw [buildBuckets]
    simp [buildBuckets]
  | v2 :: rest', v0, v1, st => by
    rw [buildBuckets]
    refine List.chain'_cons'.mpr ⟨?_, bb_chain rE step rev rest' v1 v2 _⟩
    intro y hy
    have h := bb_head_start rE step rev rest' v1 v2
      (if (v2 :: rest').isEmpty then rE
       else if rev then (Numeric.checked_sub st step).getD Numeric.ZERO
       else (Numeric.checked_add st step).getD Numeric.MAX)
    rw [Option.mem_def] at hy
    rw [hy] at h
    simpa using h.symm

/-- Claim C6: whenever `try_new` succeeds on `k` value sets it builds
exactly `max(k-1, 1)` buckets; consecutive buckets share a boundary
(bucket `i`'s end is bucket `i+1`'s start), the first bucket starts at the
range's start and the last bucket ends exactly at the range's end. -/
theorem try_new_bucket_structure {N : ℕ} {S T : Type} [Numeric S] [Numeric T]
    (range : ReversibleRange S) (vs : List (Fin N → T)) (it : LinearInterpolator N S T)
    (h : LinearInterpolator.try_new range vs = some it) :
    it.buckets.length = max (vs.length - 1) 1 ∧
    (∀ (i : ℕ) (hi : i < it.buckets.length - 1),
      (it.buckets.get ⟨i, by omega⟩).range.endv =
        (it.buckets.get ⟨i + 1, by omega⟩).range.start) ∧
    (∀ b ∈ it.buckets.head?, b.range.start = range.start) ∧
    (∀ b ∈ it.buckets.getLast?, b.range.endv = range.endv) := by
  match vs with
  | [] =>
    rw [LinearInterpolator.try_new] at h
    simp only [Option.some.injEq] at h
    subst h
    refine ⟨by simp, ?_, by simp, by simp⟩
    intro i hi
    simp at hi
  | [v] =>
    rw [LinearInterpolator.try_new] at h
    simp only [Option.some.injEq] at h
    subst h
    refine ⟨by simp, ?_, by simp, by simp⟩
    intro i hi
    simp at hi
  | v0 :: v1 :: rest =>
    rw [LinearInterpolator.try_new] at h
    simp only [List.length_cons, Nat.add_sub_cancel] at h
    rcases hc : Numeric.from_usize (α := S) (rest.length + 1) with _ | c
    · simp [hc] at h
    simp only [hc] at h
    rcases hd : Numeric.checked_div (Numeric.abs_diff range.start range.endv) c with _ | step
    · simp [hd] at h
    simp only [hd, Option.some.injEq] at h
    subst h
    have hlen := bb_length range.endv step range.is_reversed rest v0 v1 range.start
    refine ⟨?_, ?_, ?_, ?_⟩
    · simp only [LinearInterpolator.buckets, hlen, List.length_cons]
      omega
    · intro i hi
      exact List.chain'_iff_get.mp
        (bb_chain range.endv step range.is_reversed rest v0 v1 range.start) i hi
    · intro b hb
      have h2 := bb_head_start range.endv step range.is_reversed rest v0 v1 range.start
      rw [Option.mem_def] at hb
      rw [hb] at h2
      simpa using h2
    · intro b hb
      have h2 := bb_last_end range.endv step range.is_reversed rest v0 v1 range.start
      rw [Option.mem_def] at hb
      rw [hb] at h2
      simpa using h2

/-- Claim C6, exercised at the concrete construction `try_new(0.0..=100.0,
[[0],[1],[2]])` (two buckets `[0,50]`, `[50,100]`). -/
theorem try_new_bucket_structure_witness :
    it3.buckets.length = max (vs3.length - 1) 1 ∧
    (∀ (i : ℕ) (hi : i < it3.buckets.length - 1),
      (it3.buckets.get ⟨i, by omega⟩).range.endv =
        (it3.buckets.get ⟨i + 1, by omega⟩).range.start) ∧
    (∀ b ∈ it3.buckets.head?, b.range.start = range3.start) ∧
    (∀ b ∈ it3.buckets.getLast?, b.range.endv = range3.endv) :=
  try_new_bucket_structure range3 vs3 it3 try_new_it3

theorem getBucketLoop_isSome {N : ℕ} {S T : Type} [Numeric S] (rev : Bool) (s : S) :
    ∀ (slice : List (InterpolationBucket N S T)), slice ≠ [] →
      (getBucketLoop rev s slice).isSome := fun slice hne => by
  rw [getBucketLoop]
  split
  · next h =>
    dsimp only
    split
    · simp
    split
    · exact getBucketLoop_isSome rev s _
        (List.ne_nil_of_length_pos (by simp only [List.length_drop]; omega))
    · exact getBucketLoop_isSome rev s _
        (List.ne_nil_of_length_pos (by simp only [List.length_take]; omega))
  · next h =>
    cases slice with
    | nil => exact absurd rfl hne
    | cons a l => simp
termination_by slice => slice.length
decreasing_by
  all_goals (try simp only [List.length_drop, List.length_take])
  all_goals omega

theorem try_new_ne_nil {N : ℕ} {S T : Type} [Numeric S] [Numeric T]
    (range : ReversibleRange S) (vs : List (Fin N → T)) (it : LinearInterpolator N S T)
    (h : LinearInterpolator.try_new range vs = some it) : it.buckets ≠ [] := by
  match vs with
  | [] =>
    rw [LinearInterpolator.try_new] at h
    simp only [Option.some.injEq] at h
    subst h
    simp
  | [v] =>
    rw [LinearInterpolator.try_new] at h
    simp only [Option.some.injEq] at h
    subst h
    simp
  | v0 :: v1 :: rest =>
    rw [LinearInterpolator.try_new] at h
    simp only [List.length_cons, Nat.add_sub_cancel] at h
    rcases hc : Numeric.from_usize (α := S) (rest.length + 1) with _ | c
    · simp [hc] at h
    simp only [hc] at h
    rcases hd : Numeric.checked_div (Numeric.abs_diff range.start range.endv) c with _ | step
    · simp [hd] at h
    simp only [hd, Option.some.injEq] at h
    subst h
    have hlen := bb_length range.endv step range.is_reversed rest v0 v1 range.start
    exact List.ne_nil_of_length_pos (by simp only [LinearInterpolator.buckets, hlen]; omega)

theorem fStdClamp_some (x l h : ℚ) (hle : l ≤ h) :
    fStdClamp (some x) (some l) (some h) =
      some (some (if x < l then l else if h < x then h else x)) := by
  rw [fStdClamp, if_pos (show fle (some l) (some h) = true by simp [hle])]
  simp only [flt_some_some]
  split_ifs with h1 h2 h3 h4 h5 <;> simp_all

theorem F_clamp_finite (x l h : ℚ) :
    Numeric.clamp (some x) (some l) (some h) =
      some (some (if x < min l h then min l h else if max l h < x then max l h else x)) := by
  by_cases h1 : l < h
  · rw [F_clamp, if_pos (show flt (some l) (some h) = true by simp [h1]),
      fStdClamp_some x l h h1.le, min_eq_left h1.le, max_eq_right h1.le]
  · push_neg at h1
    rw [F_clamp, if_neg (show ¬ flt (some l) (some h) = true by simp [not_lt.mpr h1]),
      fStdClamp_some x h l h1, min_eq_right h1, max_eq_left h1]

theorem F_clamp_none_left (s mx : F) : Numeric.clamp s none mx = none := by
  rw [F_clamp, if_neg (by simp), fStdClamp, if_neg (by simp)]

theorem F_clamp_none_right (s mn : F) : Numeric.clamp s mn none = none := by
  rw [F_clamp, if_neg (by simp), fStdClamp, if_neg (by simp)]

theorem F_clamp_finite_isSome (s : F) (l h : ℚ) :
    (Numeric.clamp s (some l) (some h)).isSome := by
  cases s with
  | some x => rw [F_clamp_finite]; rfl
  | none =>
    by_cases h1 : l < h
    · rw [F_clamp, if_pos (show flt (some l) (some h) = true by simp [h1]), fStdClamp,
        if_pos (show fle (some l) (some h) = true by simp [h1.le])]
      rfl
    · rw [F_clamp, if_neg (show ¬ flt (some l) (some h) = true by simp [not_lt.mp h1]),
        fStdClamp, if_pos (show fle (some h) (some l) = true by simp [not_lt.mp h1])]
      rfl

theorem beqClampVal (l h x : ℚ) :
    Numeric.beq (some x)
      (some (if x < min l h then min l h else if max l h < x then max l h else x) : F) =
      decide (min l h ≤ x ∧ x ≤ max l h) := by
  by_cases hb : (min l h ≤ x ∧ x ≤ max l h)
  · rw [if_neg (not_lt.mpr hb.1), if_neg (not_lt.mpr hb.2)]
    simp [F_beq, hb]
  · rcases not_and_or.mp hb with hb1 | hb2
    · have hlt := not_le.mp hb1
      rw [if_pos hlt]
      simp only [F_beq, fbeq_some_some]
      rw [decide_eq_false (by intro he; rw [he] at hlt; exact lt_irrefl _ hlt),
        decide_eq_false hb]
    · have hlt := not_le.mp hb2
      rw [if_neg (not_lt.mpr (min_le_max.trans hlt.le)), if_pos hlt]
      simp only [F_beq, fbeq_some_some]
      rw [decide_eq_false (by intro he; rw [he] at hlt; exact lt_irrefl _ hlt),
        decide_eq_false hb]

theorem getBucketLoop_mem {N : ℕ} {S T : Type} [Numeric S] (rev : Bool) (s : S) :
    ∀ (slice : List (InterpolationBucket N S T)) (b : InterpolationBucket N S T),
      getBucketLoop rev s slice = some b → b ∈ slice := fun slice b hb => by
  rw [getBucketLoop] at hb
  split at hb
  · next h =>
    dsimp only at hb
    split at hb
    · exact (Option.some_inj.mp hb) ▸ List.get_mem _ _ _
    split at hb
    · exact List.drop_subset _ _ (getBucketLoop_mem rev s _ b hb)
    · exact List.take_subset _ _ (getBucketLoop_mem rev s _ b hb)
  · exact List.mem_of_mem_head? hb
termination_by slice => slice.length
decreasing_by
  all_goals (try simp only [List.length_drop, List.length_take])
  all_goals omega

theorem nan_try_new : LinearInterpolator.try_new nanRange vs2 = some itNaN := by
  norm_num [LinearInterpolator.try_new, buildBuckets, vs2, nanRange, itNaN, nanBucket,
    ReversibleRange.is_reversed, Numeric.abs_diff]

theorem nan_get_bucket : itNaN.get_bucket (some 0) = some nanBucket := by
  rw [LinearInterpolator.get_bucket]
  exact getBucketLoop_single _ _ _

theorem nan_interpolate : itNaN.interpolate (some 0) = none := by
  rw [LinearInterpolator.interpolate, nan_get_bucket, Option.some_bind,
    InterpolationBucket.interpolate, InterpolationBucket.relPercent,
    show nanBucket.range.start = none from rfl, show nanBucket.range.endv = some 1 from rfl,
    F_clamp_none_left]
  rfl

/-- Claim C10 counterexample: `try_new(f64::NAN..=1.0, [[0], [255]])`
succeeds (the float checked operations never fail), producing a single
bucket whose range start is NaN; `interpolate(0.0)` then panics (`none`):
the float `Numeric::clamp` takes its else branch (`min < max` is false
against NaN) and calls `std` `f64::clamp` with a NaN bound, whose
`assert!(min <= max)` fails. Interpolation is therefore not total for
every interpolator `try_new` builds. -/
theorem interpolate_nan_range_counterexample :
    LinearInterpolator.try_new nanRange vs2 = some itNaN ∧
    itNaN.get_bucket (some 0) = some nanBucket ∧
    nanBucket.range.start = none ∧
    itNaN.interpolate (some 0) = none :=
  ⟨nan_try_new, nan_get_bucket, rfl, nan_interpolate⟩

/-- Claim C10 as amended: every interpolator `try_new` builds holds at
least one bucket, so `get_bucket`'s final one-element indexing is in
bounds and `get_bucket` is total for every query scalar; `interpolate` is
total provided every bucket's range endpoints are finite (not NaN) — the
clamp's assert then always passes. (With a NaN endpoint the clamp panics;
see the counterexample.) -/
theorem interpolator_total_amended {N : ℕ} {T : Type} [Numeric T]
    (range : ReversibleRange F) (vs : List (Fin N → T)) (it : LinearInterpolator N F T)
    (h : LinearInterpolator.try_new range vs = some it)
    (hfin : ∀ b ∈ it.buckets, b.range.start ≠ none ∧ b.range.endv ≠ none) :
    it.buckets ≠ [] ∧
    ∀ s, (it.get_bucket s).isSome ∧ (it.interpolate s).isSome := by
  have hne := try_new_ne_nil range vs it h
  refine ⟨hne, fun s => ?_⟩
  have hs : (it.get_bucket s).isSome := getBucketLoop_isSome it.is_reversed s it.buckets hne
  obtain ⟨b, hb⟩ := Option.isSome_iff_exists.mp hs
  refine ⟨hs, ?_⟩
  obtain ⟨hst, hen⟩ := hfin b (getBucketLoop_mem it.is_reversed s it.buckets b hb)
  obtain ⟨l, hl⟩ := Option.ne_none_iff_exists'.mp hst
  obtain ⟨u, hu⟩ := Option.ne_none_iff_exists'.mp hen
  rw [LinearInterpolator.interpolate, hb, Option.some_bind, InterpolationBucket.interpolate,
    InterpolationBucket.relPercent, hl, hu]
  obtain ⟨cv, hcv⟩ := Option.isSome_iff_exists.mp (F_clamp_finite_isSome s l u)
  rw [hcv]
  rfl

/-- Claim C10 amended, exercised at the concrete interpolator of the other
tests (finite endpoints `0`, `50`, `100`). -/
theorem interpolator_total_amended_witness :
    it3.buckets ≠ [] ∧
    ∀ s, (it3.get_bucket s).isSome ∧ (it3.interpolate s).isSome :=
  interpolator_total_amended range3 vs3 it3 try_new_it3
    (by
      intro b hb
      simp only [it3, List.mem_cons, List.not_mem_nil, or_false] at hb
      rcases hb with rfl | rfl <;>
        exact ⟨by simp [bucket30, bucket31], by simp [bucket30, bucket31]⟩)

theorem finRange_one : List.finRange 1 = [0] := rfl

theorem finRange_three : List.finRange 3 = [0, 1, 2] := rfl

theorem F_abs_diff (a b : ℚ) :
    Numeric.abs_diff (some a) (some b) = some |a - b| := by
  simp only [Numeric.abs_diff, F_blt, flt_some_some, F_checked_sub, fsub_some_some,
    Option.getD_some]
  split_ifs with h
  · simp only [decide_eq_true_eq] at h
    rw [abs_of_pos (by linarith)]
  · simp only [decide_eq_true_eq, not_lt] at h
    rw [abs_of_nonpos (by linarith), neg_sub]

theorem maxAbs_ne_zero {d1 d2 : ℚ} (h : ¬ (d1 = 0 ∧ d2 = 0)) (h1 : 0 ≤ d1) (h2 : 0 ≤ d2) :
    max d1 d2 ≠ 0 := by
  rcases not_and_or.mp h with h' | h'
  · exact fun hm => h' (le_antisymm (le_max_left d1 d2 |>.trans hm.le) h1)
  · exact fun hm => h' (le_antisymm (le_max_right d1 d2 |>.trans hm.le) h2)

theorem revLoop_cons_none {N : ℕ} (L H X : Fin N → ℚ) (i : Fin N) (rest : List (Fin N)) :
    revLoop (fun j => some (L j)) (fun j => some (H j)) (fun j => some (X j)) (i :: rest)
        none =
      if ¬ (min (L i) (H i) ≤ X i ∧ X i ≤ max (L i) (H i)) then some none
      else if |L i - H i| = 0 ∧ |L i - X i| = 0 then
        revLoop (fun j => some (L j)) (fun j => some (H j)) (fun j => some (X j)) rest none
      else
        revLoop (fun j => some (L j)) (fun j => some (H j)) (fun j => some (X j)) rest
          (some (some (posAt L H X i))) := by
  rw [revLoop]
  simp only [F_clamp_finite, beqClampVal, F_into_f64, F_abs_diff, fmin_some_some,
    fmax_some_some, fdiv_some_some, fbeq_some_some, Bool.not_eq_true', Bool.not_eq_true,
    decide_eq_false_iff_not, Bool.and_eq_true, decide_eq_true_eq]
  by_cases hb : ¬ (min (L i) (H i) ≤ X i ∧ X i ≤ max (L i) (H i))
  · rw [if_pos hb, if_pos hb]
  · rw [if_neg hb, if_neg hb]
    by_cases hz : |L i - H i| = 0 ∧ |L i - X i| = 0
    · rw [if_pos hz, if_pos hz]
    · rw [if_neg hz, if_neg hz, if_neg (maxAbs_ne_zero hz (abs_nonneg _) (abs_nonneg _))]
      simp only [posAt]

theorem posAt_fold {N : ℕ} (L H X : Fin N → ℚ) (i : Fin N) :
    min (abs (L i - H i)) (abs (L i - X i)) / max (abs (L i - H i)) (abs (L i - X i)) =
      posAt L H X i := rfl

theorem revLoop_cons_some {N : ℕ} (L H X : Fin N → ℚ) (p : ℚ) (i : Fin N)
    (rest : List (Fin N)) :
    revLoop (fun j => some (L j)) (fun j => some (H j)) (fun j => some (X j)) (i :: rest)
        (some (some p)) =
      if ¬ (min (L i) (H i) ≤ X i ∧ X i ≤ max (L i) (H i)) then some none
      else if |L i - H i| = 0 ∧ |L i - X i| = 0 then
        revLoop (fun j => some (L j)) (fun j => some (H j)) (fun j => some (X j)) rest
          (some (some p))
      else if DIFF_FLOOR < |p - posAt L H X i| then some none
      else
        revLoop (fun j => some (L j)) (fun j => some (H j)) (fun j => some (X j)) rest
          (some (some p)) := by
  rw [revLoop]
  simp only [F_clamp_finite, beqClampVal, F_into_f64, F_abs_diff, fmin_some_some,
    fmax_some_some, fdiv_some_some, fbeq_some_some, Bool.not_eq_true', Bool.not_eq_true,
    decide_eq_false_iff_not, Bool.and_eq_true, decide_eq_true_eq]
  by_cases hb : ¬ (min (L i) (H i) ≤ X i ∧ X i ≤ max (L i) (H i))
  · rw [if_pos hb, if_pos hb]
  · rw [if_neg hb, if_neg hb]
    by_cases hz : |L i - H i| = 0 ∧ |L i - X i| = 0
    · rw [if_pos hz, if_pos hz]
    · rw [if_neg hz, if_neg hz, if_neg (maxAbs_ne_zero hz (abs_nonneg _) (abs_nonneg _))]
      simp only [fsub_some_some, fabs_some, flt_some_some, decide_eq_true_eq, posAt_fold]

theorem DIFF_FLOOR_pos : (0 : ℚ) < DIFF_FLOOR := by norm_num [DIFF_FLOOR]

theorem revLoop_acc_clean {N : ℕ} (L H X : Fin N → ℚ) (p : ℚ) :
    ∀ l : List (Fin N),
      (∀ i ∈ l, (min (L i) (H i) ≤ X i ∧ X i ≤ max (L i) (H i)) ∧
        (¬ (|L i - H i| = 0 ∧ |L i - X i| = 0) → |p - posAt L H X i| ≤ DIFF_FLOOR)) →
      revLoop (fun j => some (L j)) (fun j => some (H j)) (fun j => some (X j)) l
        (some (some p)) = some (some (some (some p)))
  | [], _ => by rw [revLoop]
  | i :: rest, hl => by
    have hi := hl i (by simp)
    have hrest := fun j hj => hl j (List.mem_cons_of_mem i hj)
    rw [revLoop_cons_some, if_neg (not_not.mpr hi.1)]
    by_cases hz : |L i - H i| = 0 ∧ |L i - X i| = 0
    · rw [if_pos hz]
      exact revLoop_acc_clean L H X p rest hrest
    · rw [if_neg hz, if_neg (not_lt.mpr (hi.2 hz))]
      exact revLoop_acc_clean L H X p rest hrest

theorem revLoop_acc_bad {N : ℕ} (L H X : Fin N → ℚ) (p : ℚ) :
    ∀ l : List (Fin N),
      (∃ i ∈ l, ¬ (min (L i) (H i) ≤ X i ∧ X i ≤ max (L i) (H i)) ∨
        (¬ (|L i - H i| = 0 ∧ |L i - X i| = 0) ∧ DIFF_FLOOR < |p - posAt L H X i|)) →
      revLoop (fun j => some (L j)) (fun j => some (H j)) (fun j => some (X j)) l
        (some (some p)) = some none
  | [], hex => by simp at hex
  | i :: rest, hex => by
    rw [revLoop_cons_some]
    by_cases hb : ¬ (min (L i) (H i) ≤ X i ∧ X i ≤ max (L i) (H i))
    · rw [if_pos hb]
    rw [if_neg hb]
    by_cases hz : |L i - H i| = 0 ∧ |L i - X i| = 0
    · rw [if_pos hz]
      refine revLoop_acc_bad L H X p rest ?_
      obtain ⟨j, hj, hbad⟩ := hex
      rcases List.mem_cons.mp hj with rfl | hj'
      · rcases hbad with h' | h'
        · exact absurd h' (not_not.mpr (not_not.mp hb))
        · exact absurd hz h'.1
      · exact ⟨j, hj', hbad⟩
    rw [if_neg hz]
    by_cases hf : DIFF_FLOOR < |p - posAt L H X i|
    · rw [if_pos hf]
    rw [if_neg hf]
    refine revLoop_acc_bad L H X p rest ?_
    obtain ⟨j, hj, hbad⟩ := hex
    rcases List.mem_cons.mp hj with rfl | hj'
    · rcases hbad with h' | h'
      · exact absurd h' (not_not.mpr (not_not.mp hb))
      · exact absurd h'.2 hf
    · exact ⟨j, hj', hbad⟩

theorem flat_forces {l h x : ℚ} (he : l = h)
    (hb : min l h ≤ x ∧ x ≤ max l h) : x = l := by
  subst he
  simp only [min_self, max_self] at hb
  exact le_antisymm hb.2 hb.1

theorem informative_of_not_flat {N : ℕ} (L H X : Fin N → ℚ) (j : Fin N)
    (hb : min (L j) (H j) ≤ X j ∧ X j ≤ max (L j) (H j))
    (hzj : ¬ (|L j - H j| = 0 ∧ |L j - X j| = 0)) : L j ≠ H j := by
  intro he
  exact hzj ⟨by simp [he], by rw [flat_forces he hb]; simp⟩

theorem revLoop_none_oob {N : ℕ} (L H X : Fin N → ℚ) :
    ∀ l : List (Fin N),
      (∃ i ∈ l, ¬ (min (L i) (H i) ≤ X i ∧ X i ≤ max (L i) (H i))) →
      revLoop (fun j => some (L j)) (fun j => some (H j)) (fun j => some (X j)) l none =
        some none
  | [], hex => by simp at hex
  | i :: rest, hex => by
    rw [revLoop_cons_none]
    by_cases hb : ¬ (min (L i) (H i) ≤ X i ∧ X i ≤ max (L i) (H i))
    · rw [if_pos hb]
    rw [if_neg hb]
    have hex' : ∃ j ∈ rest, ¬ (min (L j) (H j) ≤ X j ∧ X j ≤ max (L j) (H j)) := by
      obtain ⟨j, hj, hbad⟩ := hex
      rcases List.mem_cons.mp hj with rfl | hj'
      · exact absurd hbad (not_not.mpr (not_not.mp hb))
      · exact ⟨j, hj', hbad⟩
    by_cases hz : |L i - H i| = 0 ∧ |L i - X i| = 0
    · rw [if_pos hz]
      exact revLoop_none_oob L H X rest hex'
    · rw [if_neg hz]
      refine revLoop_acc_bad L H X (posAt L H X i) rest ?_
      obtain ⟨j, hj, hbad⟩ := hex'
      exact ⟨j, hj, Or.inl hbad⟩

theorem revLoop_none_result {N : ℕ} (L H X : Fin N → ℚ) :
    ∀ l : List (Fin N),
      (∀ i ∈ l, min (L i) (H i) ≤ X i ∧ X i ≤ max (L i) (H i)) →
      revLoop (fun j => some (L j)) (fun j => some (H j)) (fun j => some (X j)) l none =
        match l.find? (fun i => !decide (L i = H i)) with
        | none => some (some none)
        | some i0 =>
          if ∃ j ∈ l, L j ≠ H j ∧ DIFF_FLOOR < |posAt L H X i0 - posAt L H X j| then
            some none
          else some (some (some (some (posAt L H X i0))))
  | [], _ => by
    rw [revLoop]
    simp [List.find?]
  | i :: rest, hb => by
    have hbi := hb i (by simp)
    have hbrest := fun j hj => hb j (List.mem_cons_of_mem i hj)
    rw [revLoop_cons_none, if_neg (not_not.mpr hbi)]
    by_cases hLH : L i = H i
    · have hX : X i = L i := flat_forces hLH hbi
      have hz : |L i - H i| = 0 ∧ |L i - X i| = 0 := ⟨by simp [hLH], by rw [hX]; simp⟩
      rw [if_pos hz, revLoop_none_result L H X rest hbrest]
      have hfind : (i :: rest).find? (fun i => !decide (L i = H i)) =
          rest.find? (fun i => !decide (L i = H i)) := by
        simp [List.find?, hLH]
      rw [hfind]
      cases hf : rest.find? (fun i => !decide (L i = H i)) with
      | none => rfl
      | some i0 =>
        dsimp only
        have hiff : (∃ j ∈ rest, L j ≠ H j ∧
            DIFF_FLOOR < |posAt L H X i0 - posAt L H X j|) ↔
            (∃ j ∈ i :: rest, L j ≠ H j ∧
              DIFF_FLOOR < |posAt L H X i0 - posAt L H X j|) := by
          constructor
          · rintro ⟨j, hj, hj2⟩
            exact ⟨j, List.mem_cons_of_mem i hj, hj2⟩
          · rintro ⟨j, hj, hj2⟩
            rcases List.mem_cons.mp hj with rfl | hj'
            · exact absurd hLH hj2.1
            · exact ⟨j, hj', hj2⟩
        rw [if_congr hiff rfl rfl]
    · have hz : ¬ (|L i - H i| = 0 ∧ |L i - X i| = 0) :=
        fun hc => hLH (by have := abs_eq_zero.mp hc.1; linarith)
      rw [if_neg hz]
      have hfind : (i :: rest).find? (fun i => !decide (L i = H i)) = some i := by
        simp [List.find?, hLH]
      rw [hfind]
      dsimp only
      by_cases hd : ∃ j ∈ i :: rest, L j ≠ H j ∧
          DIFF_FLOOR < |posAt L H X i - posAt L H X j|
      · rw [if_pos hd]
        refine revLoop_acc_bad L H X (posAt L H X i) rest ?_
        obtain ⟨j, hj, hj1, hj2⟩ := hd
        rcases List.mem_cons.mp hj with rfl | hj'
        · rw [sub_self, abs_zero] at hj2
          exact absurd hj2 (not_lt.mpr DIFF_FLOOR_pos.le)
        · refine ⟨j, hj', Or.inr ⟨?_, hj2⟩⟩
          exact fun hc => hj1 (by have := abs_eq_zero.mp hc.1; linarith)
      · rw [if_neg hd]
        push_neg at hd
        refine revLoop_acc_clean L H X (posAt L H X i) rest ?_
        intro j hj
        refine ⟨hbrest j hj, fun hzj => ?_⟩
        have hLHj : L j ≠ H j := informative_of_not_flat L H X j (hbrest j hj) hzj
        exact hd j (List.mem_cons_of_mem i hj) hLHj

theorem revInterp_loop_early {N : ℕ} (a c : ℚ) (L H X : Fin N → ℚ)
    (h : revLoop (fun j => some (L j)) (fun j => some (H j)) (fun j => some (X j))
      (List.finRange N) none = some none) :
    (finBucket a c L H).reverse_interpolate (fun j => some (X j)) = some none := by
  rw [InterpolationBucket.reverse_interpolate]
  simp only [finBucket]
  rw [h]

theorem revInterp_loop_flat {N : ℕ} (a c : ℚ) (L H X : Fin N → ℚ)
    (h : revLoop (fun j => some (L j)) (fun j => some (H j)) (fun j => some (X j))
      (List.finRange N) none = some (some none)) :
    (finBucket a c L H).reverse_interpolate (fun j => some (X j)) = some none := by
  rw [InterpolationBucket.reverse_interpolate]
  simp only [finBucket]
  rw [h]

theorem revInterp_loop_some {N : ℕ} (a c r : ℚ) (L H X : Fin N → ℚ)
    (h : revLoop (fun j => some (L j)) (fun j => some (H j)) (fun j => some (X j))
      (List.finRange N) none = some (some (some (some r)))) :
    (finBucket a c L H).reverse_interpolate (fun j => some (X j)) =
      some (some (some (if a < c then a + |c - a| * r
        else c + |c - a| * (if c < a then 1 - r else r)))) := by
  rw [InterpolationBucket.reverse_interpolate]
  simp only [finBucket]
  rw [h]
  dsimp only
  simp only [Numeric.scale, F_abs_diff, F_into_f64, F_from_f64, F_checked_add, F_blt,
    flt_some_some, fmul_some_some]
  by_cases hca : c < a
  · have hac : ¬ a < c := asymm hca
    simp only [decide_eq_true hca, if_true, fsub_some_some, fmul_some_some,
      decide_eq_false hac, Bool.false_eq_true, if_false, fadd_some_some, Option.some_bind]
    rw [if_neg hac, if_pos hca]
  · simp only [decide_eq_false hca, Bool.false_eq_true, if_false]
    by_cases hac : a < c
    · simp only [decide_eq_true hac, if_true, fmul_some_some, fadd_some_some,
        Option.some_bind]
      rw [if_pos hac]
    · simp only [decide_eq_false hac, Bool.false_eq_true, if_false, fmul_some_some,
        fadd_some_some, Option.some_bind]
      rw [if_neg hac, if_neg hca]

theorem oob_iff {N : ℕ} (L H X : Fin N → ℚ) (i : Fin N) :
    oobAt L H X i ↔ ¬ (min (L i) (H i) ≤ X i ∧ X i ≤ max (L i) (H i)) := by
  rw [oobAt, not_and_or, not_le, not_le]

/-- Claim C4 as amended: over `f64` ranges and finite `f64` component
values, `reverse_interpolate` returns `None` exactly when some component
lies outside `[min(lo[i], hi[i]), max(lo[i], hi[i])]`, or some informative
component's relative position differs by more than `1e-6` from the FIRST
informative component's (the loop compares every informative component
against the first one, not pairwise), or every component is flat
(`lo[i] = hi[i]`). (`some none` is the normal return `None`; the outer
layer distinguishes it from a clamp panic, impossible here since every
component value is finite.) -/
theorem reverse_none_iff {N : ℕ} (a c : ℚ) (L H X : Fin N → ℚ) :
    (finBucket a c L H).reverse_interpolate (fun j => some (X j)) = some none ↔
      (∃ i, oobAt L H X i) ∨
      (∃ i0, firstInformative L H = some i0 ∧
        ∃ j, L j ≠ H j ∧ DIFF_FLOOR < |posAt L H X i0 - posAt L H X j|) ∨
      (∀ i, L i = H i) := by
  constructor
  · intro hnone
    by_cases hoob : ∃ i, oobAt L H X i
    · exact Or.inl hoob
    push_neg at hoob
    have hb : ∀ i ∈ List.finRange N, min (L i) (H i) ≤ X i ∧ X i ≤ max (L i) (H i) :=
      fun i _ => not_not.mp (fun hc => hoob i ((oob_iff L H X i).mpr hc))
    by_cases hflat : ∀ i, L i = H i
    · exact Or.inr (Or.inr hflat)
    refine Or.inr (Or.inl ?_)
    push_neg at hflat
    have hloop := revLoop_none_result L H X (List.finRange N) hb
    rcases hfind : (List.finRange N).find? (fun i => !decide (L i = H i)) with _ | i0
    · rw [List.find?_eq_none] at hfind
      obtain ⟨i, hi⟩ := hflat
      have hcontr := hfind i (List.mem_finRange i)
      simp only [Bool.not_eq_true', Bool.not_eq_true, decide_eq_false_iff_not, not_not,
        decide_eq_true_eq, not_true, not_false_iff] at hcontr
      exact absurd hcontr hi
    rw [hfind] at hloop
    dsimp only at hloop
    by_cases hd : ∃ j ∈ List.finRange N, L j ≠ H j ∧
        DIFF_FLOOR < |posAt L H X i0 - posAt L H X j|
    · obtain ⟨j, _, hj⟩ := hd
      exact ⟨i0, hfind, j, hj⟩
    · rw [if_neg hd] at hloop
      have := revInterp_loop_some a c (posAt L H X i0) L H X hloop
      rw [this] at hnone
      exact absurd hnone (by simp)
  · rintro (⟨i, hoob⟩ | ⟨i0, hfind, j, hj1, hj2⟩ | hflat)
    · exact revInterp_loop_early a c L H X
        (revLoop_none_oob L H X (List.finRange N)
          ⟨i, List.mem_finRange i, (oob_iff L H X i).mp hoob⟩)
    · by_cases hoob : ∃ i, oobAt L H X i
      · obtain ⟨i, hi⟩ := hoob
        exact revInterp_loop_early a c L H X
          (revLoop_none_oob L H X (List.finRange N)
            ⟨i, List.mem_finRange i, (oob_iff L H X i).mp hi⟩)
      push_neg at hoob
      have hb : ∀ i ∈ List.finRange N, min (L i) (H i) ≤ X i ∧ X i ≤ max (L i) (H i) :=
        fun i _ => not_not.mp (fun hc => hoob i ((oob_iff L H X i).mpr hc))
      have hloop := revLoop_none_result L H X (List.finRange N) hb
      rw [show (List.finRange N).find? (fun i => !decide (L i = H i)) = some i0 from hfind]
        at hloop
      dsimp only at hloop
      rw [if_pos ⟨j, List.mem_finRange j, hj1, hj2⟩] at hloop
      exact revInterp_loop_early a c L H X hloop
    · by_cases hoob : ∃ i, oobAt L H X i
      · obtain ⟨i, hi⟩ := hoob
        exact revInterp_loop_early a c L H X
          (revLoop_none_oob L H X (List.finRange N)
            ⟨i, List.mem_finRange i, (oob_iff L H X i).mp hi⟩)
      push_neg at hoob
      have hb : ∀ i ∈ List.finRange N, min (L i) (H i) ≤ X i ∧ X i ≤ max (L i) (H i) :=
        fun i _ => not_not.mp (fun hc => hoob i ((oob_iff L H X i).mpr hc))
      have hloop := revLoop_none_result L H X (List.finRange N) hb
      rw [show (List.finRange N).find? (fun i => !decide (L i = H i)) = none from
        List.find?_eq_none.mpr (fun i _ => by simpa using hflat i)] at hloop
      exact revInterp_loop_flat a c L H X hloop

theorem revXQ_pos1 : posAt revL revH revXQ 1 = 1/2 + 9/10000000 := by
  norm_num [posAt, revL, revH, revXQ, min_def, max_def, abs_of_nonneg]

theorem revXQ_pos2 : posAt revL revH revXQ 2 = 1/2 - 9/10000000 := by
  norm_num [posAt, revL, revH, revXQ, min_def, max_def, abs_of_nonneg]

theorem revXQ_pos0 : posAt revL revH revXQ 0 = 1/2 := by
  norm_num [posAt, revL, revH, revXQ, min_def, max_def, abs_of_nonneg]

theorem revB_result : revB.reverse_interpolate revInput = some (some (some (1/2))) := by
  have h0 : revLoop (fun j => some (revL j)) (fun j => some (revH j))
      (fun j => some (revXQ j)) (List.finRange 3) none = some (some (some (some (1/2)))) := by
    rw [finRange_three, revLoop_cons_none,
      if_neg (not_not.mpr ⟨by norm_num [revL, revH, revXQ], by norm_num [revL, revH, revXQ]⟩),
      if_neg (by norm_num [revL, revH, revXQ]), revXQ_pos0, revLoop_cons_some,
      if_neg (not_not.mpr ⟨by norm_num [revL, revH, revXQ], by norm_num [revL, revH, revXQ]⟩),
      if_neg (by norm_num [revL, revH, revXQ]),
      if_neg (by rw [revXQ_pos1]; norm_num [DIFF_FLOOR, abs_of_nonneg]), revLoop_cons_some,
      if_neg (not_not.mpr ⟨by norm_num [revL, revH, revXQ], by norm_num [revL, revH, revXQ]⟩),
      if_neg (by norm_num [revL, revH, revXQ]),
      if_neg (by rw [revXQ_pos2]; norm_num [DIFF_FLOOR, abs_of_nonneg]), revLoop]
  have h1 := revInterp_loop_some 0 1 (1/2) revL revH revXQ h0
  rw [show revB.reverse_interpolate revInput =
    (finBucket 0 1 revL revH).reverse_interpolate (fun j => some (revXQ j)) from rfl, h1]
  norm_num

/-- Claim C4 counterexample: components 1 and 2 are informative and their
relative positions (`1/2 + 9e-7` and `1/2 - 9e-7`) differ by `1.8e-6`,
more than the `1e-6` tolerance — yet `reverse_interpolate` succeeds with
`Some(0.5)`, because the loop compares each informative component only
against the FIRST informative component (position `1/2`, within `9e-7` of
both), never pairwise. This refutes the claim's "returns None exactly
when ... two informative components' relative positions differ by more
than 1e-6". -/
theorem reverse_none_pairwise_counterexample :
    revB.reverse_interpolate revInput = some (some (some (1/2))) ∧
    revL 1 ≠ revH 1 ∧ revL 2 ≠ revH 2 ∧
    DIFF_FLOOR < |posAt revL revH revXQ 1 - posAt revL revH revXQ 2| :=
  ⟨revB_result, by norm_num [revL, revH], by norm_num [revL, revH],
   by rw [revXQ_pos1, revXQ_pos2]; norm_num [DIFF_FLOOR, abs_of_nonneg]⟩

theorem ramp_rel : byteRampBucket.relPercent (some (1/2)) = some (some (1/2)) := by
  norm_num [byteRampBucket, InterpolationBucket.relPercent, ReversibleRange.len,
    Numeric.abs_diff, fStdClamp]

theorem floor_ramp : ⌊(255 * (1/2) : ℚ)⌋₊ = 127 := by
  rw [Nat.floor_eq_iff (by norm_num)]
  norm_num

theorem ramp_adj : byteRampBucket.adj (some (1/2)) 0 = (127 : U8) := by
  rw [InterpolationBucket.adj,
    show Numeric.abs_diff (byteRampBucket.values_lo 0) (byteRampBucket.values_hi 0) =
      (255 : U8) from by decide, Numeric.scale]
  simp only [U8_into_f64, U8v255, fmul_some_some, U8_from_f64, Nat.cast_ofNat]
  rw [u8FromF64, dif_pos (by norm_num)]
  simp only [Option.getD_some, floor_ramp]
  decide

theorem ramp_at_half : byteRampBucket.interpolate (some (1/2)) = some ![127] := by
  rw [InterpolationBucket.interpolate, ramp_rel, Option.map_some']
  refine congrArg some (funext fun i => ?_)
  rw [Subsingleton.elim i 0]
  simp only [ramp_adj]
  decide

theorem ramp_rev :
    byteRampBucket.reverse_interpolate ![127] = some (some (some (127/255))) := by
  rw [InterpolationBucket.reverse_interpolate,
    show List.finRange 1 = [0] from finRange_one, revLoop,
    show Numeric.clamp ((![127] : Fin 1 → U8) 0) (byteRampBucket.values_lo 0)
      (byteRampBucket.values_hi 0) = some (127 : U8) from by decide]
  dsimp only
  rw [if_neg (by decide),
    show Numeric.abs_diff (byteRampBucket.values_lo 0) (byteRampBucket.values_hi 0) =
      (255 : U8) from by decide,
    show Numeric.abs_diff (byteRampBucket.values_lo 0) ((![127] : Fin 1 → U8) 0) =
      (127 : U8) from by decide]
  simp only [U8_into_f64, U8v255, U8v127, fbeq_some_some, fmin_some_some, fmax_some_some,
    fdiv_some_some]
  rw [if_neg (by norm_num)]
  rw [revLoop]
  have h1 : byteRampBucket.range.start = some 0 := rfl
  have h2 : byteRampBucket.range.endv = some 1 := rfl
  rw [h1, h2]
  simp only [Numeric.scale, F_into_f64, F_abs_diff, F_blt, flt_some_some, F_from_f64,
    F_checked_add]
  norm_num

/-- Claim C3 counterexample: for the `u8` bucket over `[0.0, 1.0]` from
`[0]` to `[255]` (informative) and the query `0.5` strictly inside,
`interpolate` quantizes `127.5` down to `127`, and
`reverse_interpolate([127])` recovers `127/255 ≈ 0.498`, which misses
`0.5` by about `0.0039` relative — far beyond the claimed `1e-6` relative
tolerance. -/
theorem roundtrip_counterexample :
    ((0:ℚ) < 1/2 ∧ (1/2:ℚ) < 1) ∧
    byteRampBucket.values_lo 0 ≠ byteRampBucket.values_hi 0 ∧
    byteRampBucket.interpolate (some (1/2)) = some ![127] ∧
    byteRampBucket.reverse_interpolate ![127] = some (some (some (127/255))) ∧
    ¬ |(127:ℚ)/255 - 1/2| ≤ DIFF_FLOOR * |(1/2 : ℚ)| := by
  refine ⟨by norm_num, by decide, ramp_at_half, ramp_rev, ?_⟩
  rw [abs_of_nonpos (by norm_num), abs_of_nonneg (by norm_num)]
  norm_num [DIFF_FLOOR]

theorem interpFin {N : ℕ} (a c x : ℚ) (L H : Fin N → ℚ)
    (hne : a ≠ c) (h1 : min a c ≤ x) (h2 : x ≤ max a c) :
    (finBucket a c L H).interpolate (some x) =
      some (fun i => some (L i + (H i - L i) * (|x - a| / |a - c|))) := by
  have habs : |a - c| ≠ 0 := abs_ne_zero.mpr (sub_ne_zero.mpr hne)
  have hrel : (finBucket a c L H).relPercent (some x) =
      some (some (|x - a| / |a - c|)) := by
    rw [InterpolationBucket.relPercent, ReversibleRange.len]
    simp only [finBucket]
    rw [F_clamp_finite, if_neg (not_lt.mpr h1), if_neg (not_lt.mpr h2)]
    simp only [Option.map_some']
    rw [F_abs_diff, F_abs_diff, F_into_f64, F_into_f64, fdiv_some_some, if_neg habs]
  rw [InterpolationBucket.interpolate, hrel, Option.map_some']
  refine congrArg some (funext fun i => ?_)
  simp only [InterpolationBucket.adj]
  simp only [finBucket]
  rw [Numeric.scale, F_abs_diff]
  simp only [F_into_f64, F_from_f64, fmul_some_some, Option.getD_some, F_blt, flt_some_some]
  by_cases hHL : H i < L i
  · rw [if_pos (decide_eq_true hHL)]
    simp only [F_checked_sub, fsub_some_some, Option.getD_some, Option.some.injEq]
    rw [abs_of_pos (sub_pos.mpr hHL)]
    ring
  · rw [if_neg (by simp [hHL])]
    simp only [F_checked_add, fadd_some_some, Option.getD_some, Option.some.injEq]
    rw [abs_of_nonpos (sub_nonpos.mpr (not_lt.mp hHL))]
    ring

theorem boundsY {N : ℕ} (L H : Fin N → ℚ) (r : ℚ) (hr0 : 0 ≤ r) (hr1 : r ≤ 1) (j : Fin N) :
    min (L j) (H j) ≤ L j + (H j - L j) * r ∧ L j + (H j - L j) * r ≤ max (L j) (H j) := by
  rcases le_total (L j) (H j) with h | h
  · rw [min_eq_left h, max_eq_right h]
    constructor <;> nlinarith
  · rw [min_eq_right h, max_eq_left h]
    constructor <;> nlinarith

theorem posY {N : ℕ} (L H : Fin N → ℚ) (r : ℚ) (hr0 : 0 ≤ r) (hr1 : r ≤ 1) (j : Fin N)
    (hj : L j ≠ H j) :
    posAt L H (fun i => L i + (H i - L i) * r) j = r := by
  rw [posAt]
  have h2 : |L j - (L j + (H j - L j) * r)| = |L j - H j| * r := by
    rw [show L j - (L j + (H j - L j) * r) = -((H j - L j) * r) by ring, abs_neg, abs_mul,
      abs_of_nonneg hr0, abs_sub_comm (H j) (L j)]
  rw [h2, min_eq_right (mul_le_of_le_one_right (abs_nonneg _) hr1),
    max_eq_left (mul_le_of_le_one_right (abs_nonneg _) hr1), mul_comm,
    mul_div_assoc, div_self (abs_ne_zero.mpr (sub_ne_zero.mpr hj)), mul_one]

/-- Claim C3 as amended: over exact `f64` (real-valued) components the
round-trip is exact — for every finite bucket with at least one informative
component and every query strictly inside the range,
`reverse_interpolate(interpolate(q))` recovers `q` exactly (in genuine
floating point this holds up to rounding, consistent with the `1e-6`
tolerance); integer components quantize and can miss by up to half a
component step, far beyond `1e-6`. -/
theorem roundtrip_exact_float {N : ℕ} (a c x : ℚ) (L H : Fin N → ℚ)
    (hin : (a < x ∧ x < c) ∨ (c < x ∧ x < a))
    (hinf : ∃ j, L j ≠ H j) :
    ∃ v, (finBucket a c L H).interpolate (some x) = some v ∧
      (finBucket a c L H).reverse_interpolate v = some (some (some x)) := by
  have hne : a ≠ c := by
    rcases hin with ⟨u, v⟩ | ⟨u, v⟩ <;> intro he <;> subst he <;> linarith
  have h1 : min a c ≤ x := by
    rcases hin with ⟨u, v⟩ | ⟨u, v⟩
    · exact le_trans (min_le_left a c) u.le
    · exact le_trans (min_le_right a c) u.le
  have h2 : x ≤ max a c := by
    rcases hin with ⟨u, v⟩ | ⟨u, v⟩
    · exact v.le.trans (le_max_right a c)
    · exact v.le.trans (le_max_left a c)
  have hr0 : 0 ≤ |x - a| / |a - c| :=
    div_nonneg (abs_nonneg _) (abs_nonneg _)
  have hr1 : |x - a| / |a - c| ≤ 1 := by
    rw [div_le_one (abs_pos.mpr (sub_ne_zero.mpr hne))]
    rcases hin with ⟨u, v⟩ | ⟨u, v⟩
    · rw [abs_of_pos (sub_pos.mpr u), abs_of_neg (sub_neg.mpr (u.trans v))]
      linarith
    · rw [abs_of_neg (sub_neg.mpr v), abs_of_pos (sub_pos.mpr (u.trans v))]
      linarith
  refine ⟨fun i => some (L i + (H i - L i) * (|x - a| / |a - c|)),
    interpFin a c x L H hne h1 h2, ?_⟩
  have hbY : ∀ i ∈ List.finRange N,
      min (L i) (H i) ≤ L i + (H i - L i) * (|x - a| / |a - c|) ∧
        L i + (H i - L i) * (|x - a| / |a - c|) ≤ max (L i) (H i) :=
    fun i _ => boundsY L H _ hr0 hr1 i
  have hloop := revLoop_none_result L H
    (fun i => L i + (H i - L i) * (|x - a| / |a - c|)) (List.finRange N) hbY
  rcases hfind : (List.finRange N).find? (fun i => !decide (L i = H i)) with _ | i0
  · rw [List.find?_eq_none] at hfind
    obtain ⟨j, hj⟩ := hinf
    have hcontr := hfind j (List.mem_finRange j)
    simp only [Bool.not_eq_true', Bool.not_eq_true, decide_eq_false_iff_not, not_not,
      decide_eq_true_eq, not_true, not_false_iff] at hcontr
    exact absurd hcontr hj
  have hinf0 : L i0 ≠ H i0 := by
    have := List.find?_some hfind
    simpa using this
  have hpos0 : posAt L H (fun i => L i + (H i - L i) * (|x - a| / |a - c|)) i0 =
      |x - a| / |a - c| := posY L H _ hr0 hr1 i0 hinf0
  rw [hfind] at hloop
  dsimp only at hloop
  rw [if_neg ?hagree] at hloop
  case hagree =>
    rintro ⟨j, _, hj1, hj2⟩
    rw [hpos0, posY L H _ hr0 hr1 j hj1, sub_self, abs_zero] at hj2
    exact absurd hj2 (not_lt.mpr DIFF_FLOOR_pos.le)
  rw [revInterp_loop_some a c _ L H _ hloop, hpos0]
  rcases hin with ⟨u, v⟩ | ⟨u, v⟩
  · have hac : a < c := u.trans v
    have hden : c - a ≠ 0 := sub_ne_zero.mpr hac.ne'
    rw [if_pos hac, abs_of_pos (sub_pos.mpr u), abs_of_neg (sub_neg.mpr hac),
      abs_of_pos (sub_pos.mpr hac), show -(a - c) = c - a from by ring]
    field_simp
  · have hca : c < a := u.trans v
    have hden : a - c ≠ 0 := sub_ne_zero.mpr hca.ne'
    rw [if_neg (not_lt.mpr hca.le), if_pos hca, abs_of_neg (sub_neg.mpr v),
      abs_of_neg (sub_neg.mpr hca), abs_of_pos (sub_pos.mpr hca),
      show -(x - a) = a - x from by ring, show -(c - a) = a - c from by ring]
    field_simp

/-- Claim C3 amended, exercised at a concrete input: the one-component
`f64` bucket over `[0, 1]` from `0` to `1`, queried at `1/2`. -/
theorem roundtrip_exact_float_witness :
    ∃ v, (finBucket (0:ℚ) 1 (![0] : Fin 1 → ℚ) ![1]).interpolate (some (1/2)) = some v ∧
      (finBucket (0:ℚ) 1 (![0] : Fin 1 → ℚ) ![1]).reverse_interpolate v =
        some (some (some (1/2))) :=
  roundtrip_exact_float 0 1 (1/2) ![0] ![1] (Or.inl ⟨by norm_num, by norm_num⟩)
    ⟨0, by norm_num⟩
